import Mathlib

/-!
Verification of the courtlistener bulk-data export command
(alert/api/management/commands/cl_make_bulk_data.py) and the CA
judge-import command (cl/people_db/management/commands/import_ca_judges.py),
as a shallow embedding in Lean.

Filesystem state is made explicit: a directory listing is a list of entry
names (or of name-content pairs), and the staged json files of an object
type are a function from a jurisdiction directory name to the json file
names it holds.
-/

namespace CourtListener

/-! ## Shell glob patterns

The command locates files with Python glob patterns. A glob component
whose pattern does not itself begin with a dot never matches an entry
name beginning with a dot (hidden files). -/

/-- Does the character list begin with a dot? -/
def startsWithDot : List Char → Bool
  | '.' :: _ => true
  | _ => false

/-- Is the entry name hidden (its first character a dot)? -/
def isHidden (n : String) : Bool := startsWithDot n.data

/-- Python glob with pattern star: every entry of the directory whose name
does not begin with a dot. -/
def globStar (entries : List String) : List String :=
  entries.filter (fun n => !(isHidden n))

/-- Embeds test_if_old_bulk_files_exist: glob the staging directory of the
object type with pattern star and report whether anything matched. -/
def test_if_old_bulk_files_exist (entries : List String) : Bool :=
  !(globStar entries).isEmpty

/-- Does the character list begin with the four characters dot-t-a-r? -/
def isTarAt : List Char → Bool
  | '.' :: 't' :: 'a' :: 'r' :: _ => true
  | _ => false

/-- Does the character list contain dot-t-a-r as a contiguous run? -/
def hasTarSubstr : List Char → Bool
  | [] => false
  | c :: rest => isTarAt (c :: rest) || hasTarSubstr rest

/-- Python glob pattern star-dot-t-a-r-star, as used by swap_archives:
the name is not hidden and contains the substring dot-t-a-r. -/
def matches_tar_pattern (n : String) : Bool :=
  !(isHidden n) && hasTarSubstr n.data

/-- Does the character list end in the five characters of the json file
extension? -/
def endsWithJson : List Char → Bool
  | '.' :: 'j' :: 's' :: 'o' :: 'n' :: [] => true
  | _ :: rest => endsWithJson rest
  | [] => false

/-- Python glob pattern star-dot-j-s-o-n, as used on jurisdiction
directories by tar_and_compress_all_json_files. -/
def matches_json_pattern (n : String) : Bool :=
  !(isHidden n) && endsWithJson n.data

/-! ## Records and incremental selection -/

/-- A database record as the export sees it: a primary key, the
jurisdiction key it files under (deepgetattr of the court attribute), and
a modification timestamp in seconds. -/
structure BulkRecord where
  pk : Nat
  court : String
  date_modified : Int
deriving DecidableEq, Repr

/-- datetime.timedelta with days 32, in seconds. -/
def thirty_two_days : Int := 32 * 86400

/-- The queryset built by write_json_to_disk and make_archive: when prior
staged files exist (incremental mode) only records with date_modified
strictly greater than now minus 32 days; otherwise all records. -/
def selected_records (stagingNames : List String) (nowT : Int)
    (records : List BulkRecord) : List BulkRecord :=
  if test_if_old_bulk_files_exist stagingNames then
    records.filter (fun r => decide (nowT - thirty_two_days < r.date_modified))
  else
    records

/-- A per-record json file written into a jurisdiction directory. -/
structure WrittenFile where
  court : String
  name : String
  content : String
deriving DecidableEq, Repr

/-- The exception raised when an empty queryset is indexed at position
zero. -/
inductive ExportError where
  | indexError
deriving DecidableEq, Repr

/-- Embeds Command.write_json_to_disk: decide the mode from the staging
directory, select the records, index the first selected record (raising
IndexError when there is none, before any file is written), then write
one json file per record named by primary key into that record's
jurisdiction directory. -/
def write_json_to_disk (stagingNames : List String) (nowT : Int)
    (records : List BulkRecord) (serialize : BulkRecord → String) :
    Except ExportError (List WrittenFile) :=
  let qs := selected_records stagingNames nowT records
  if qs.isEmpty then
    Except.error ExportError.indexError
  else
    Except.ok (qs.map (fun r =>
      { court := r.court
        name := toString r.pk ++ ".json"
        content := serialize r }))

/-- Apply the written files to the per-jurisdiction directory listings:
each file lands in its jurisdiction directory, overwriting (not
duplicating) an entry of the same name. -/
def apply_writes (dirFiles : String → List String)
    (files : List WrittenFile) : String → List String :=
  files.foldl
    (fun d f => fun c =>
      if c = f.court then
        (if f.name ∈ d c then d c else d c ++ [f.name])
      else d c)
    dirFiles

/-! ## The archiver (tar_and_compress_all_json_files) -/

/-- The file name of a jurisdiction's compressed archive. -/
def tarGzName (c : String) : String := c ++ ".tar.gz"

/-- The first phase of tar_and_compress_all_json_files: for each court,
write the file c.tar.gz whose members are the json files of that court's
staging directory. The result is the updated file store (name to archive
member list). -/
def write_tar_gz_files (courts : List String) (dirFiles : String → List String)
    (fs : String → Option (List String)) : String → Option (List String) :=
  match courts with
  | [] => fs
  | c :: rest =>
      write_tar_gz_files rest dirFiles
        (fun n =>
          if n = tarGzName c then
            some ((dirFiles c).filter matches_json_pattern)
          else fs n)

/-- The archives produced by one run of tar_and_compress_all_json_files:
the per-jurisdiction archives (archive name with its record-file members)
and the members of the aggregate all.tar, each member being a
per-jurisdiction archive file read back from disk together with the
record files it holds. -/
structure ArchiveRun where
  perCourt : List (String × List String)
  allMembers : List (String × List String)
deriving DecidableEq, Repr

/-- Embeds tar_and_compress_all_json_files: phase one creates c.tar.gz
for every court from the json files on disk; phase two creates all.tar
whose members are the files named c.tar.gz, read back from the file
store. -/
def tar_and_compress_all_json_files (courts : List String)
    (dirFiles : String → List String)
    (fs : String → Option (List String)) : ArchiveRun :=
  let fs2 := write_tar_gz_files courts dirFiles fs
  { perCourt := courts.map (fun c =>
      (tarGzName c, (dirFiles c).filter matches_json_pattern))
    allMembers := courts.map (fun c =>
      (tarGzName c, (fs2 (tarGzName c)).getD [])) }

/-- One object type's slice of do_everything: write_json_to_disk followed
by tar_and_compress_all_json_files; an exception from the first phase
propagates and no archive is produced. -/
def export_object_type (stagingNames : List String) (nowT : Int)
    (records : List BulkRecord) (serialize : BulkRecord → String)
    (courts : List String) (dirFiles : String → List String)
    (fs : String → Option (List String)) : Except ExportError ArchiveRun :=
  match write_json_to_disk stagingNames nowT records serialize with
  | Except.error e => Except.error e
  | Except.ok files =>
      Except.ok (tar_and_compress_all_json_files courts
        (apply_writes dirFiles files) fs)

/-! ## The alternate archiver (Command.make_archive) -/

/-- Point update of the dictionary of open tar handles, each handle
carrying the member list of its archive. -/
def upd_tar (tars : String → List String) (k : String) (v : List String) :
    String → List String :=
  fun x => if x = k then v else tars x

/-- One loop iteration of Command.make_archive: the record's json member
is appended to the tar handle of the record's court, then to the handle
of the aggregate archive named all. -/
def add_record_to_tars (tars : String → List String) (it : BulkRecord) :
    String → List String :=
  let e := toString it.pk ++ ".json"
  let t1 := upd_tar tars it.court (tars it.court ++ [e])
  upd_tar t1 "all" (t1 "all" ++ [e])

/-- Embeds the item loop of Command.make_archive over the open tar
handles (opened in append mode, so init carries any pre-existing
members). -/
def make_archive_tars (init : String → List String)
    (items : List BulkRecord) : String → List String :=
  items.foldl add_record_to_tars init

/-- The balance property of the tar-handle dictionary: the aggregate
archive holds as many members as all per-court archives together. -/
def tars_balanced (courts : List String) (tars : String → List String) : Prop :=
  (tars "all").length = (courts.map (fun c => (tars c).length)).sum

/-! ## The publisher (swap_archives) -/

/-- shutil.move of one staged file into the published directory: the
published entry of that name now holds the staged content, clobbering
any previous entry of that name. -/
def shutil_move (pub : String → Option String) (name content : String) :
    String → Option String :=
  fun n => if n = name then some content else pub n

/-- The staged files matched by the glob of swap_archives. -/
def glob_tar_matches (staging : List (String × String)) :
    List (String × String) :=
  staging.filter (fun f => matches_tar_pattern f.1)

/-- The move loop of swap_archives: each globbed file in turn is moved
over the published entry carrying its name. -/
def move_tar_files (matched : List (String × String))
    (pub : String → Option String) : String → Option String :=
  match matched with
  | [] => pub
  | f :: rest => move_tar_files rest (shutil_move pub f.1 f.2)

/-- Embeds swap_archives. Staging is the listing of the object type's
tmp directory as name-content pairs (an entry is a file, or a
jurisdiction subdirectory whose content stands for everything inside
it); published maps a name to the content published under it. Every
staged entry matching the tar glob is moved: removed from staging and
written over the published entry of the same name. -/
def swap_archives (staging : List (String × String))
    (pub : String → Option String) :
    List (String × String) × (String → Option String) :=
  (staging.filter (fun f => !(matches_tar_pattern f.1)),
   move_tar_files (glob_tar_matches staging) pub)

/-! ## mkdir_p -/

/-- The errno carried by an OSError raised from os.makedirs. -/
structure OSErrorInfo where
  errno : Nat
deriving DecidableEq, Repr

/-- errno.EEXIST on Linux. -/
def EEXIST : Nat := 17

/-- Embeds mkdir_p: osResult is the outcome of os.makedirs (none on
success, some exception otherwise) and isdir whether os.path.isdir holds
of the path afterwards. The already-exists case is swallowed; every
other error re-raises. -/
def mkdir_p (osResult : Option OSErrorInfo) (isdir : Bool) :
    Except OSErrorInfo Unit :=
  match osResult with
  | none => Except.ok ()
  | some exc =>
      if exc.errno = EEXIST ∧ isdir = true then Except.ok ()
      else Except.error exc

/-! ## The judge importer (import_ca_judges)

The per-position loop of import_ca_judges lives under src. Its input
comes from process_positions and its granularity constant from the
models module, neither of which is under src; those two are modelled
from the spec. A created record's field is three-valued: the key can be
absent (deleted before Position.objects.create), present with a null
value, or present with a string value. -/

/-- The value of one keyword argument of the created position record. -/
inductive FieldVal where
  | absent : FieldVal
  | null : FieldVal
  | str : String → FieldVal
deriving DecidableEq, Repr

/-- Python truthiness of a field: a present, non-empty string. -/
def FieldVal.isTruthy : FieldVal → Bool
  | FieldVal.str s => !(s == "")
  | _ => false

/-- Python truthiness of a json value that is null or a string. -/
def truthyOpt : Option String → Bool
  | none => false
  | some s => !(s == "")

/-- Modelled from the spec: the position dictionaries returned by
process_positions (helper module not under src). Each carries exactly
the keys the import loop reads: pending and inactive status, court,
organization name, position type, job title, start and termination
dates, and termination reason; the two granularity keys are not present
until the loop adds them. A value is null (none) or a string. -/
structure ProcessedPosition where
  pending_status : Option String
  inactive_status : Option String
  court : Option String
  organization_name : Option String
  position_type : Option String
  job_title : Option String
  date_start : Option String
  date_termination : Option String
  termination_reason : Option String
deriving DecidableEq, Repr

/-- The keyword arguments handed to Position.objects.create for one
position. -/
structure PositionRecord where
  pending_status : FieldVal
  inactive_status : FieldVal
  court : FieldVal
  organization_name : FieldVal
  position_type : FieldVal
  job_title : FieldVal
  date_start : FieldVal
  date_granularity_start : FieldVal
  date_termination : FieldVal
  date_granularity_termination : FieldVal
  termination_reason : FieldVal
deriving DecidableEq, Repr

/-- A key still present after the loop, carrying its json value. -/
def toField : Option String → FieldVal
  | none => FieldVal.null
  | some s => FieldVal.str s

/-- Modelled from the spec: the day-granularity marker GRANULARITY_DAY,
a constant of the models module (not under src). -/
def GRANULARITY_DAY : String := "day"

/-- Embeds the body of the per-position loop of import_ca_judges, with
conv standing for convert_date_to_gran_format (helper module not under
src): delete the status keys; delete organization_name when court is
truthy and job_title when position_type is truthy; when date_start is
truthy convert it and set day granularity; when date_termination is
truthy convert it and set day granularity, otherwise delete the
date_termination and termination_reason keys. -/
def create_position (conv : String → String) (pos : ProcessedPosition) :
    PositionRecord :=
  { pending_status := FieldVal.absent
    inactive_status := FieldVal.absent
    court := toField pos.court
    organization_name :=
      if truthyOpt pos.court then FieldVal.absent
      else toField pos.organization_name
    position_type := toField pos.position_type
    job_title :=
      if truthyOpt pos.position_type then FieldVal.absent
      else toField pos.job_title
    date_start :=
      match pos.date_start with
      | some d => if d = "" then FieldVal.str d else FieldVal.str (conv d)
      | none => FieldVal.null
    date_granularity_start :=
      if truthyOpt pos.date_start then FieldVal.str GRANULARITY_DAY
      else FieldVal.absent
    date_termination :=
      match pos.date_termination with
      | some d => if d = "" then FieldVal.absent else FieldVal.str (conv d)
      | none => FieldVal.absent
    date_granularity_termination :=
      if truthyOpt pos.date_termination then FieldVal.str GRANULARITY_DAY
      else FieldVal.absent
    termination_reason :=
      if truthyOpt pos.date_termination then toField pos.termination_reason
      else FieldVal.absent }

/-! ## Helper lemmas -/

lemma test_eq_true_iff (entries : List String) :
    test_if_old_bulk_files_exist entries = true ↔
      ∃ n ∈ entries, isHidden n = false := by
  simp [test_if_old_bulk_files_exist, globStar, List.isEmpty_iff,
    List.filter_eq_nil_iff]

/-- The content the move loop leaves at name n: that of the last matched
file carrying the name, when there is one. -/
def last_matching (l : List (String × String)) (n : String) : Option String :=
  match l with
  | [] => none
  | f :: rest =>
      match last_matching rest n with
      | some v => some v
      | none => if f.1 = n then some f.2 else none

lemma move_tar_files_at (l : List (String × String)) :
    ∀ (pub : String → Option String) (n : String),
      move_tar_files l pub n =
        match last_matching l n with
        | some v => some v
        | none => pub n := by
  induction l with
  | nil => intro pub n; rfl
  | cons a l ih =>
    intro pub n
    rw [move_tar_files, ih]
    cases h : last_matching l n with
    | some v => simp [last_matching, h]
    | none =>
      by_cases hn : a.1 = n
      · simp [last_matching, h, hn, shutil_move]
      · have hn2 : n ≠ a.1 := fun he => hn he.symm
        simp [last_matching, h, hn, hn2, shutil_move]

lemma last_matching_none (l : List (String × String)) (n : String)
    (h : ∀ f ∈ l, f.1 ≠ n) : last_matching l n = none := by
  induction l with
  | nil => rfl
  | cons a l ih =>
    have ha : a.1 ≠ n := h a (List.mem_cons_self a l)
    have hrest : last_matching l n = none :=
      ih (fun f hf => h f (List.mem_cons_of_mem a hf))
    simp [last_matching, hrest, ha]

lemma last_matching_unique (l : List (String × String))
    (f : String × String) (hnd : (l.map Prod.fst).Nodup) (hf : f ∈ l) :
    last_matching l f.1 = some f.2 := by
  induction l with
  | nil => cases hf
  | cons a l ih =>
    rw [List.map_cons, List.nodup_cons] at hnd
    rcases List.mem_cons.mp hf with hfa | hfl
    · subst hfa
      have hnone : last_matching l f.1 = none := by
        apply last_matching_none
        intro g hg hgf
        exact hnd.1 (hgf ▸ List.mem_map_of_mem Prod.fst hg)
      simp [last_matching, hnone]
    · simp [last_matching, ih hnd.2 hfl]

/-! ## Claims -/

/-- C1: in incremental mode the export selects exactly the records whose
modification timestamp is strictly greater than now minus 32 days; in
full mode it selects every record. -/
theorem c1_selection_by_mode (stagingNames : List String) (nowT : Int)
    (records : List BulkRecord) :
    (test_if_old_bulk_files_exist stagingNames = true →
      ∀ r : BulkRecord, r ∈ selected_records stagingNames nowT records ↔
        (r ∈ records ∧ nowT - thirty_two_days < r.date_modified))
    ∧ (test_if_old_bulk_files_exist stagingNames = false →
      selected_records stagingNames nowT records = records) := by
  constructor
  · intro h r
    simp [selected_records, h, List.mem_filter]
  · intro h
    simp [selected_records, h]

/-- Witness for C1: with a pre-existing staged file the mode is
incremental, and a record exactly 32 days old is not selected while a
fresh one is. -/
theorem c1_witness :
    test_if_old_bulk_files_exist ["prior"] = true
    ∧ ((⟨2, "ca", -2764800⟩ : BulkRecord) ∈
        selected_records ["prior"] 0 [⟨1, "ca", 0⟩, ⟨2, "ca", -2764800⟩] ↔
        ((⟨2, "ca", -2764800⟩ : BulkRecord) ∈
          ([⟨1, "ca", 0⟩, ⟨2, "ca", -2764800⟩] : List BulkRecord)
          ∧ (0 : Int) - thirty_two_days < -2764800)) :=
  ⟨by decide,
   (c1_selection_by_mode ["prior"] 0 [⟨1, "ca", 0⟩, ⟨2, "ca", -2764800⟩]).1
     (by decide) ⟨2, "ca", -2764800⟩⟩

/-- C2 counterexample: a staging directory holding exactly one entry,
named with a leading dot, is non-empty, yet the mode test reports a full
export, because Python glob with pattern star skips hidden names. -/
theorem c2_counterexample :
    ¬ ((test_if_old_bulk_files_exist [".stamp"] = true) ↔
        ([".stamp"] ≠ ([] : List String))) := by
  decide

/-- C2 amended: the export runs in incremental mode if and only if the
staging directory for the object type contains at least one entry whose
name does not begin with a dot; an empty or absent directory, or one
holding only dot-named entries, yields a full export. -/
theorem c2_amended_incremental_iff (entries : List String) :
    test_if_old_bulk_files_exist entries = true ↔
      ∃ n ∈ entries, isHidden n = false :=
  test_eq_true_iff entries

/-- C8: mkdir_p swallows a directory-already-exists error (EEXIST with
the path a directory) and succeeds; it re-raises every other error from
directory creation. -/
theorem c8_mkdir_p_error_policy (e : OSErrorInfo) (d : Bool) :
    (mkdir_p none d = Except.ok ())
    ∧ (e.errno = EEXIST ∧ d = true → mkdir_p (some e) d = Except.ok ())
    ∧ (¬ (e.errno = EEXIST ∧ d = true) →
        mkdir_p (some e) d = Except.error e) := by
  refine ⟨rfl, ?_, ?_⟩ <;> intro h <;> simp [mkdir_p, h]

/-- Witness for C8: an EEXIST error on an existing directory is
swallowed. -/
theorem c8_witness :
    ((⟨17⟩ : OSErrorInfo).errno = EEXIST ∧ true = true)
    ∧ mkdir_p (some ⟨17⟩) true = Except.ok () :=
  ⟨⟨rfl, rfl⟩, (c8_mkdir_p_error_policy ⟨17⟩ true).2.1 ⟨rfl, rfl⟩⟩

/-- C9: when the selection for an object type is empty, write_json_to_disk
raises IndexError at the first index of the queryset with no record file
written, and the object type's export step propagates the error, so no
archive is produced. -/
theorem c9_empty_selection_raises (stagingNames : List String) (nowT : Int)
    (records : List BulkRecord) (serialize : BulkRecord → String)
    (courts : List String) (dirFiles : String → List String)
    (fs : String → Option (List String))
    (h : selected_records stagingNames nowT records = []) :
    write_json_to_disk stagingNames nowT records serialize
      = Except.error ExportError.indexError
    ∧ export_object_type stagingNames nowT records serialize courts dirFiles fs
      = Except.error ExportError.indexError := by
  have hw : write_json_to_disk stagingNames nowT records serialize
      = Except.error ExportError.indexError := by
    simp [write_json_to_disk, h]
  exact ⟨hw, by simp [export_object_type, hw]⟩

/-- Witness for C9: an incremental run in which no record falls inside
the window produces an IndexError, not an archive. -/
theorem c9_witness :
    selected_records ["prior"] 0 [⟨1, "ca", -2764800⟩] = []
    ∧ export_object_type ["prior"] 0 [⟨1, "ca", -2764800⟩] (fun _ => "")
        ["ca"] (fun _ => []) (fun _ => none)
      = Except.error ExportError.indexError :=
  ⟨by decide,
   (c9_empty_selection_raises ["prior"] 0 [⟨1, "ca", -2764800⟩] (fun _ => "")
     ["ca"] (fun _ => []) (fun _ => none) (by decide)).2⟩

/-- C6: swap_archives publishes every staged entry matching the archive
pattern under its own name with its staged content (clobbering whatever
was published there), removes it from staging, and leaves every
published name that no moved file carries unchanged. -/
theorem c6_swap_publishes_archives (staging : List (String × String))
    (pub : String → Option String)
    (hnd : (staging.map Prod.fst).Nodup) :
    (∀ f ∈ staging, matches_tar_pattern f.1 = true →
      (swap_archives staging pub).2 f.1 = some f.2
      ∧ f ∉ (swap_archives staging pub).1)
    ∧ (∀ n : String,
        (∀ f ∈ staging, matches_tar_pattern f.1 = true → f.1 ≠ n) →
        (swap_archives staging pub).2 n = pub n) := by
  constructor
  · intro f hf hm
    have hglob : f ∈ glob_tar_matches staging :=
      List.mem_filter.mpr ⟨hf, hm⟩
    have hndg : ((glob_tar_matches staging).map Prod.fst).Nodup := by
      apply List.Nodup.sublist ?_ hnd
      exact List.Sublist.map Prod.fst (List.filter_sublist staging)
    constructor
    · show move_tar_files (glob_tar_matches staging) pub f.1 = some f.2
      rw [move_tar_files_at, last_matching_unique _ f hndg hglob]
    · intro hmem
      have h2 := (List.mem_filter.mp hmem).2
      simp [hm] at h2
  · intro n hn
    show move_tar_files (glob_tar_matches staging) pub n = pub n
    rw [move_tar_files_at, last_matching_none]
    intro f hf
    exact hn f (List.mem_filter.mp hf).1 (List.mem_filter.mp hf).2

/-- Witness for C6: the staged archive all.tar is published with its
content and no longer staged. -/
theorem c6_witness :
    ((([("ca1", "dir"), ("all.tar", "A")] : List (String × String)).map
        Prod.fst).Nodup)
    ∧ (swap_archives [("ca1", "dir"), ("all.tar", "A")] (fun _ => none)).2
        "all.tar" = some "A"
    ∧ ("all.tar", "A") ∉
        (swap_archives [("ca1", "dir"), ("all.tar", "A")] (fun _ => none)).1 :=
  ⟨by decide,
   (c6_swap_publishes_archives [("ca1", "dir"), ("all.tar", "A")]
     (fun _ => none) (by decide)).1 ("all.tar", "A") (by decide) (by decide)⟩

/-- C7: running swap_archives a second time over the same staged content
leaves the published directory exactly as one run leaves it. -/
theorem c7_swap_idempotent (staging : List (String × String))
    (pub : String → Option String) :
    (swap_archives staging ((swap_archives staging pub).2)).2
      = (swap_archives staging pub).2 := by
  funext n
  show move_tar_files (glob_tar_matches staging)
      (move_tar_files (glob_tar_matches staging) pub) n
    = move_tar_files (glob_tar_matches staging) pub n
  cases h : last_matching (glob_tar_matches staging) n with
  | some v => rw [move_tar_files_at, move_tar_files_at, h]
  | none => rw [move_tar_files_at, move_tar_files_at, h]

/-- C10: swap_archives leaves every staged entry not matching the
archive pattern in place (jurisdiction subdirectories with the record
files inside them), and when such a non-hidden entry exists, the staging
directory the next run sees is non-empty, so its mode test reports
incremental. -/
theorem c10_swap_leaves_staging_incremental
    (staging : List (String × String)) (pub : String → Option String)
    (h : ∃ f ∈ staging,
      matches_tar_pattern f.1 = false ∧ isHidden f.1 = false) :
    (∀ f ∈ staging, matches_tar_pattern f.1 = false →
      f ∈ (swap_archives staging pub).1)
    ∧ test_if_old_bulk_files_exist
        (((swap_archives staging pub).1).map Prod.fst) = true := by
  constructor
  · intro f hf hm
    simp [swap_archives, List.mem_filter, hf, hm]
  · rcases h with ⟨f, hf, hm, hh⟩
    rw [test_eq_true_iff]
    refine ⟨f.1, ?_, hh⟩
    apply List.mem_map_of_mem Prod.fst
    simp [swap_archives, List.mem_filter, hf, hm]

/-- Witness for C10: after a run whose staging holds a jurisdiction
directory and an archive, the directory entry survives the swap and the
next mode test is incremental. -/
theorem c10_witness :
    (∃ f ∈ ([("ca1", "dir"), ("all.tar", "A")] : List (String × String)),
      matches_tar_pattern f.1 = false ∧ isHidden f.1 = false)
    ∧ test_if_old_bulk_files_exist
        (((swap_archives [("ca1", "dir"), ("all.tar", "A")]
            (fun _ => none)).1).map Prod.fst) = true :=
  ⟨by decide,
   (c10_swap_leaves_staging_incremental [("ca1", "dir"), ("all.tar", "A")]
     (fun _ => none) (by decide)).2⟩

/-! ## Lemmas for the archiver -/

lemma string_append_cancel_right (a b s : String) (h : a ++ s = b ++ s) :
    a = b := by
  have h2 : a.data ++ s.data = b.data ++ s.data := by
    simpa using congrArg String.data h
  have h3 : a.data = b.data := List.append_cancel_right h2
  cases a
  cases b
  exact congrArg String.mk h3

lemma tarGzName_inj {c d : String} (h : tarGzName c = tarGzName d) : c = d :=
  string_append_cancel_right c d ".tar.gz" h

lemma write_tar_gz_frame (courts : List String)
    (dirFiles : String → List String) (n : String) :
    ∀ fs : String → Option (List String),
      (∀ c ∈ courts, n ≠ tarGzName c) →
      write_tar_gz_files courts dirFiles fs n = fs n := by
  induction courts with
  | nil => intro fs _; rfl
  | cons d rest ih =>
    intro fs h
    rw [write_tar_gz_files]
    rw [ih _ (fun c hc => h c (List.mem_cons_of_mem d hc))]
    exact if_neg (h d (List.mem_cons_self d rest))

lemma write_tar_gz_lookup (courts : List String)
    (dirFiles : String → List String) (c : String) :
    ∀ fs : String → Option (List String), c ∈ courts →
      write_tar_gz_files courts dirFiles fs (tarGzName c)
        = some ((dirFiles c).filter matches_json_pattern) := by
  induction courts with
  | nil => intro fs h; cases h
  | cons d rest ih =>
    intro fs h
    by_cases hc : c ∈ rest
    · exact ih _ hc
    · have hcd : c = d := by
        rcases List.mem_cons.mp h with h1 | h2
        · exact h1
        · exact absurd h2 hc
      subst hcd
      rw [write_tar_gz_files]
      rw [write_tar_gz_frame rest dirFiles _ _ ?_]
      · simp
      · intro c2 hc2 heq
        exact hc (tarGzName_inj heq ▸ hc2)

lemma sum_map_point_update (courts : List String) (g : String → Nat)
    (k : String) (v : Nat) (hnd : courts.Nodup) (hk : k ∈ courts) :
    (courts.map (fun c => if c = k then v else g c)).sum + g k
      = (courts.map g).sum + v := by
  induction courts with
  | nil => cases hk
  | cons d rest ih =>
    rcases List.nodup_cons.mp hnd with ⟨hdr, hndr⟩
    rcases List.mem_cons.mp hk with hkd | hkr
    · subst hkd
      have hmap : rest.map (fun c => if c = k then v else g c)
          = rest.map g := by
        apply List.map_congr_left
        intro c hc
        have hck : c ≠ k := fun he => hdr (he ▸ hc)
        simp [hck]
      simp [hmap]
      omega
    · have hdk : d ≠ k := fun he => hdr (he ▸ hkr)
      have hsum := ih hndr hkr
      simp [hdk]
      omega

lemma add_record_balanced (courts : List String)
    (tars : String → List String) (it : BulkRecord) (hnd : courts.Nodup)
    (hall : "all" ∉ courts) (hc : it.court ∈ courts)
    (hb : tars_balanced courts tars) :
    tars_balanced courts (add_record_to_tars tars it) := by
  have hca : it.court ≠ "all" := fun he => hall (he ▸ hc)
  have hac : ("all" : String) ≠ it.court := fun he => hca he.symm
  have hallv : add_record_to_tars tars it "all"
      = tars "all" ++ [toString it.pk ++ ".json"] := by
    simp [add_record_to_tars, upd_tar, hac]
  have hcourt : ∀ c ∈ courts,
      (add_record_to_tars tars it c).length
        = if c = it.court then (tars it.court).length + 1
          else (tars c).length := by
    intro c hcm
    have hcall : c ≠ "all" := fun he => hall (he ▸ hcm)
    by_cases hcc : c = it.court
    · simp [add_record_to_tars, upd_tar, hcall, hcc, hca]
    · simp [add_record_to_tars, upd_tar, hcall, hcc]
  have hmap : courts.map (fun c => (add_record_to_tars tars it c).length)
      = courts.map (fun c =>
          if c = it.court then (tars it.court).length + 1
          else (tars c).length) :=
    List.map_congr_left hcourt
  have hsum : (courts.map (fun c =>
        if c = it.court then (tars it.court).length + 1
        else (tars c).length)).sum + (tars it.court).length
      = (courts.map (fun c => (tars c).length)).sum
        + ((tars it.court).length + 1) := by
    simpa using sum_map_point_update courts (fun c => (tars c).length)
      it.court ((tars it.court).length + 1) hnd hc
  unfold tars_balanced at hb ⊢
  rw [hallv, hmap]
  simp only [List.length_append, List.length_cons, List.length_nil]
  omega

lemma make_archive_balanced (courts : List String) (hnd : courts.Nodup)
    (hall : "all" ∉ courts) :
    ∀ (items : List BulkRecord) (init : String → List String),
      (∀ it ∈ items, it.court ∈ courts) → tars_balanced courts init →
      tars_balanced courts (make_archive_tars init items) := by
  intro items
  induction items with
  | nil => intro init _ hb; exact hb
  | cons it items ih =>
    intro init hmem hb
    have hstep := add_record_balanced courts init it hnd hall
      (hmem it (List.mem_cons_self it items)) hb
    exact ih (add_record_to_tars init it)
      (fun x hx => hmem x (List.mem_cons_of_mem it hx)) hstep

/-- C3: in one run of the archiver, the aggregate archive's members are
exactly the per-jurisdiction archives of the run, so it holds exactly
their record files (none duplicated, none dropped) and its record count
is the sum of the per-jurisdiction record counts; and the alternate
archiver of make_archive preserves the same balance, each record going
once into its court's archive and once into the aggregate. -/
theorem c3_aggregate_matches_per_court (courts : List String)
    (dirFiles : String → List String) (fs : String → Option (List String)) :
    ((tar_and_compress_all_json_files courts dirFiles fs).allMembers.map
        (fun m => m.2)).flatten
      = ((tar_and_compress_all_json_files courts dirFiles fs).perCourt.map
          (fun m => m.2)).flatten
    ∧ ((tar_and_compress_all_json_files courts dirFiles fs).allMembers.map
        (fun m => m.2.length)).sum
      = ((tar_and_compress_all_json_files courts dirFiles fs).perCourt.map
          (fun m => m.2.length)).sum
    ∧ (∀ (init : String → List String) (items : List BulkRecord),
        courts.Nodup → "all" ∉ courts →
        (∀ it ∈ items, it.court ∈ courts) →
        tars_balanced courts init →
        tars_balanced courts (make_archive_tars init items)) := by
  have hmem : (tar_and_compress_all_json_files courts dirFiles fs).allMembers
      = (tar_and_compress_all_json_files courts dirFiles fs).perCourt := by
    simp only [tar_and_compress_all_json_files]
    apply List.map_congr_left
    intro c hc
    rw [write_tar_gz_lookup courts dirFiles c fs hc]
    rfl
  refine ⟨by rw [hmem], by rw [hmem], ?_⟩
  intro init items hnd hall hmemb hb
  exact make_archive_balanced courts hnd hall items init hmemb hb

/-- Witness for C3: one court, one record; the aggregate member list
equals the per-court archive and the alternate archiver stays balanced. -/
theorem c3_witness :
    (["ca"] : List String).Nodup ∧ ("all" ∉ (["ca"] : List String))
    ∧ (∀ it ∈ ([⟨1, "ca", 0⟩] : List BulkRecord), it.court ∈ ["ca"])
    ∧ tars_balanced ["ca"] (fun _ => [])
    ∧ tars_balanced ["ca"]
        (make_archive_tars (fun _ => []) [⟨1, "ca", 0⟩]) :=
  ⟨by decide, by decide, by decide, rfl,
   (c3_aggregate_matches_per_court ["ca"] (fun _ => ["1.json"])
     (fun _ => none)).2.2 (fun _ => []) [⟨1, "ca", 0⟩]
       (by decide) (by decide) (by decide) rfl⟩

/-! ## Lemmas and claims for the judge importer -/

lemma isTruthy_toField (o : Option String) :
    (toField o).isTruthy = truthyOpt o := by
  cases o <;> simp [toField, FieldVal.isTruthy, truthyOpt]

/-- C4 (spec-modelled input shape): a position whose termination date is
present (truthy) keeps its termination reason and gets day granularity
for the termination date; one without a termination date has the
termination-reason, termination-date and termination-granularity keys
entirely absent from the created record, not stored as null. -/
theorem c4_termination_fields (conv : String → String)
    (pos : ProcessedPosition) :
    (truthyOpt pos.date_termination = true →
      (create_position conv pos).termination_reason
          = toField pos.termination_reason
      ∧ (create_position conv pos).date_granularity_termination
          = FieldVal.str GRANULARITY_DAY)
    ∧ (truthyOpt pos.date_termination = false →
      (create_position conv pos).termination_reason = FieldVal.absent
      ∧ (create_position conv pos).date_granularity_termination
          = FieldVal.absent
      ∧ (create_position conv pos).date_termination = FieldVal.absent) := by
  constructor
  · intro h
    exact ⟨by simp [create_position, h], by simp [create_position, h]⟩
  · intro h
    refine ⟨by simp [create_position, h], by simp [create_position, h], ?_⟩
    cases hd : pos.date_termination with
    | none => simp [create_position, hd]
    | some d =>
      have hde : d = "" := by simpa [truthyOpt, hd] using h
      simp [create_position, hd, hde]

/-- Witness for C4: a terminated position keeps its reason with day
granularity. -/
theorem c4_witness :
    truthyOpt (some "2010-01-02") = true
    ∧ ((create_position (fun s => s)
        { pending_status := none, inactive_status := none,
          court := some "CA-Super", organization_name := none,
          position_type := some "jud", job_title := none,
          date_start := some "2001-05-01",
          date_termination := some "2010-01-02",
          termination_reason := some "retired" }).termination_reason
          = toField (some "retired")
      ∧ (create_position (fun s => s)
        { pending_status := none, inactive_status := none,
          court := some "CA-Super", organization_name := none,
          position_type := some "jud", job_title := none,
          date_start := some "2001-05-01",
          date_termination := some "2010-01-02",
          termination_reason := some "retired" }).date_granularity_termination
          = FieldVal.str GRANULARITY_DAY) :=
  ⟨by decide,
   (c4_termination_fields (fun s => s)
     { pending_status := none, inactive_status := none,
       court := some "CA-Super", organization_name := none,
       position_type := some "jud", job_title := none,
       date_start := some "2001-05-01",
       date_termination := some "2010-01-02",
       termination_reason := some "retired" }).1 (by decide)⟩

/-- C5 (spec-modelled input shape): a created position record with court
set (truthy) has no organization_name key, and one with position_type
set has no job_title key. -/
theorem c5_exclusive_pairs (conv : String → String)
    (pos : ProcessedPosition) :
    ((create_position conv pos).court.isTruthy = true →
      (create_position conv pos).organization_name = FieldVal.absent)
    ∧ ((create_position conv pos).position_type.isTruthy = true →
      (create_position conv pos).job_title = FieldVal.absent) := by
  constructor
  · intro h
    have h2 : truthyOpt pos.court = true := by
      simpa [create_position, isTruthy_toField] using h
    simp [create_position, h2]
  · intro h
    have h2 : truthyOpt pos.position_type = true := by
      simpa [create_position, isTruthy_toField] using h
    simp [create_position, h2]

/-- Witness for C5: a court position drops organization_name. -/
theorem c5_witness :
    ((create_position (fun s => s)
        { pending_status := none, inactive_status := none,
          court := some "CA-App", organization_name := some "Org",
          position_type := some "jud", job_title := some "Title",
          date_start := none, date_termination := none,
          termination_reason := none }).court.isTruthy = true)
    ∧ (create_position (fun s => s)
        { pending_status := none, inactive_status := none,
          court := some "CA-App", organization_name := some "Org",
          position_type := some "jud", job_title := some "Title",
          date_start := none, date_termination := none,
          termination_reason := none }).organization_name
        = FieldVal.absent :=
  ⟨by decide,
   (c5_exclusive_pairs (fun s => s)
     { pending_status := none, inactive_status := none,
       court := some "CA-App", organization_name := some "Org",
       position_type := some "jud", job_title := some "Title",
       date_start := none, date_termination := none,
       termination_reason := none }).1 (by decide)⟩

end CourtListener
